import Mathlib

/-!
Shallow embedding of the inbound-golang-sdk client library: the generic
request/response pipeline (request, makeRequest), the reflective query-string
encoder (buildQueryString), the idempotency-header plumbing of the email
service, and the webhook payload helpers (GetFromAddress, GetToAddress,
GetHeaders), together with theorems checking the specification claims.
-/

namespace InboundSDK

/-- JSON values, as encoding/json sees decoded untyped data. Numeric payloads
are irrelevant to every claim, so numbers are carried as integers. -/
inductive JValue where
  | jnull
  | jbool (b : Bool)
  | jnum (n : Int)
  | jstr (s : String)
  | jarr (elems : List JValue)
  | jobj (fields : List (String × JValue))

/-- The client structure. The Go field httpClient is modeled as the Transport
function argument threaded to the functions that perform calls. -/
structure Inbound where
  apiKey : String
  baseURL : String

/-- The standard two-field response envelope ApiResponse. -/
structure ApiResponse (T : Type) where
  data : Option T
  error : String

/-- The outgoing http.Request, reduced to the fields the library sets. -/
structure HttpRequest where
  method : String
  url : String
  headers : List (String × String)
  body : Option JValue

/-- Result of reading the response body with io.ReadAll: a read failure, or
the bytes. Byte contents are carried already parsed (none marks bytes that
are not valid JSON, which every json.Unmarshal call rejects). -/
inductive BodyRead where
  | readErr
  | bytes (content : Option JValue)

/-- The incoming http.Response, reduced to the fields makeRequest reads. -/
structure HttpResponse where
  statusCode : Nat
  status : String
  body : BodyRead

/-- Result of http.Client.Do. Per the net/http contract a Do failure is a
url.Error value, carried here as its Op, URL and underlying message. -/
inductive DoResult where
  | doErr (op url msg : String)
  | resp (r : HttpResponse)

/-- The HTTP client behavior, one call at a time. -/
def Transport : Type := HttpRequest → DoResult

/-- Plain double-quoting, modeling the %q verb; escaping of exotic
characters inside the quoted text is elided. -/
def quoteGo (s : String) : String := "\"" ++ s ++ "\""

/-- The message of a url.Error: op, quoted URL, then the underlying message. -/
def urlErrorString (op url msg : String) : String :=
  op ++ " " ++ quoteGo url ++ ": " ++ msg

/-- RFC 7230 token characters as accepted by net/http: ASCII letters, digits,
and the listed specials (39 and 96 are the apostrophe and the backtick). -/
def isTokenChar (ch : Char) : Bool :=
  ch.isAlphanum || ("!#$%&*+-.^_|~".toList.contains ch)
    || ch = Char.ofNat 39 || ch = Char.ofNat 96

/-- net/http validMethod: nonempty and all token characters. -/
def validMethod (method : String) : Bool :=
  method.length != 0 && method.toList.all isTokenChar

/-- net/url Parse rejects URLs containing an ASCII control byte. -/
def hasCtlByte (s : String) : Bool :=
  s.toList.any (fun ch => ch.toNat < 32 || ch.toNat == 127)

/-- http.Header.Set: replace any previous value of the key. All keys the
library sets are already in canonical form, so canonicalization is elided. -/
def setHeader (hs : List (String × String)) (k v : String) : List (String × String) :=
  hs.filter (fun p => p.1 != k) ++ [(k, v)]

/-- http.Header.Get for the single-valued headers of this model. -/
def lookupHeader (hs : List (String × String)) (k : String) : Option String :=
  (hs.find? (fun p => p.1 == k)).map (fun p => p.2)

/-- The construction part of Inbound.request: marshal the body, validate the
method and URL as http.NewRequestWithContext and url.Parse do, and set the
default and custom headers. Marshaling the JSON-shaped bodies of this model
cannot fail, so the marshal-error branch of the Go code is unreachable. -/
def buildRequest (c : Inbound) (method endpoint : String) (body : Option JValue)
    (headers : List (String × String)) : Except String HttpRequest :=
  let url := c.baseURL ++ endpoint
  let effMethod := if method = "" then "GET" else method
  if validMethod effMethod = false then
    .error ("failed to create request: net/http: invalid method " ++ quoteGo method)
  else if hasCtlByte url = true then
    .error ("failed to create request: " ++
      urlErrorString "parse" url "net/url: invalid control character in URL")
  else
    let h0 := setHeader [] "Authorization" ("Bearer " ++ c.apiKey)
    let h1 := setHeader h0 "Content-Type" "application/json"
    let h2 := headers.foldl (fun acc kv => setHeader acc kv.1 kv.2) h1
    .ok { method := effMethod, url := url, headers := h2, body := body }

/-- Inbound.request: build the request and hand it to the HTTP client. The
result of Do — a response, or a url.Error whose message the caller reads —
is returned verbatim. -/
def request (c : Inbound) (transport : Transport) (method endpoint : String)
    (body : Option JValue) (headers : List (String × String)) :
    Except String HttpResponse :=
  match buildRequest c method endpoint body headers with
  | .error e => .error e
  | .ok req =>
    match transport req with
    | .doErr op u m => .error (urlErrorString op u m)
    | .resp r => .ok r

/-- ASCII lower-casing of one character, for the case-insensitive key match
of encoding/json (strings.EqualFold restricted to the ASCII keys in play). -/
def asciiLower (ch : Char) : Char :=
  if 65 ≤ ch.toNat && ch.toNat ≤ 90 then Char.ofNat (ch.toNat + 32) else ch

/-- Whether a JSON object key matches the struct field tagged error: exact
matches are preferred by encoding/json but fold into the same test here
because there is a single field. -/
def matchesErrorTag (k : String) : Bool :=
  k.toList.map asciiLower == "error".toList

/-- json.Unmarshal of the response body into the anonymous struct with one
string field tagged error: top-level null is a no-op, a top-level object
assigns from the keys matching the tag (ASCII-case-insensitively, later
duplicates winning, null values skipped), and any other top-level shape or a
non-string matching value is an unmarshal error (none). -/
def unmarshalErrorResp (content : Option JValue) : Option String :=
  match content with
  | none => none
  | some .jnull => some ""
  | some (.jobj fields) =>
    fields.foldl
      (fun acc kv =>
        match acc with
        | none => none
        | some cur =>
          if matchesErrorTag kv.1 then
            match kv.2 with
            | .jstr s => some s
            | .jnull => some cur
            | _ => none
          else some cur)
      (some "")
  | some _ => none

/-- The synthesized fallback message built with fmt.Sprintf from the numeric
status code and the status line. -/
def statusMessage (resp : HttpResponse) : String :=
  "HTTP " ++ toString resp.statusCode ++ ": " ++ resp.status

/-- The response-classification part of makeRequest: read the body, translate
status at least 400 into the server-supplied or synthesized error string, and
decode a success body into the target type through unmarshalT, the stand-in
for json.Unmarshal at the target type. -/
def responseEnvelope {T : Type} (unmarshalT : JValue → Option T)
    (resp : HttpResponse) : ApiResponse T :=
  match resp.body with
  | .readErr => { data := none, error := "Failed to read response body" }
  | .bytes content =>
    if 400 ≤ resp.statusCode then
      match unmarshalErrorResp content with
      | some e =>
        if e ≠ "" then { data := none, error := e }
        else { data := none, error := statusMessage resp }
      | none => { data := none, error := statusMessage resp }
    else
      match content with
      | none => { data := none, error := "Failed to parse response" }
      | some jv =>
        match unmarshalT jv with
        | none => { data := none, error := "Failed to parse response" }
        | some result => { data := some result, error := "" }

/-- makeRequest, the generic helper for the complete request cycle. Every
error coming out of request — construction failure or transport failure
alike — is folded into the envelope, and the Go error component of the
returned pair is nil on every path of the source. marshalB stands in for
json.Marshal at the body type. -/
def makeRequest {T B : Type} (unmarshalT : JValue → Option T) (marshalB : B → JValue)
    (c : Inbound) (transport : Transport) (method endpoint : String)
    (body : Option B) (headers : List (String × String)) :
    ApiResponse T × Option String :=
  match request c transport method endpoint (body.map marshalB) headers with
  | .error err => ({ data := none, error := err }, none)
  | .ok resp => (responseEnvelope unmarshalT resp, none)

/-- The continuation of makeRequest once a request has been built: hand it to
the HTTP client and classify the outcome. -/
def dispatch {T : Type} (unmarshalT : JValue → Option T) (transport : Transport)
    (req : HttpRequest) : ApiResponse T × Option String :=
  match transport req with
  | .doErr op u m => ({ data := none, error := urlErrorString op u m }, none)
  | .resp r => (responseEnvelope unmarshalT r, none)

/-- Map lookup on the assoc-list maps of this model (http.Header.Get and Go
map indexing; keys are unique wherever the source uses a real map). -/
def assocLookup {α : Type} (m : List (String × α)) (k : String) : Option α :=
  (m.find? (fun p => p.1 == k)).map (fun p => p.2)

/-- The dynamic view reflect gives of one query-struct field value; the
library only carries string, int, bool and pointers to those, with fother
standing for every other kind, which no switch case matches. -/
inductive QField where
  | fstr (s : String)
  | fint (n : Int)
  | fbool (b : Bool)
  | fptrStr (s : Option String)
  | fptrInt (n : Option Int)
  | fptrBool (b : Option Bool)
  | fother

/-- One struct field as the reflection loop sees it: whether it is exported
(CanInterface), its raw json tag (empty when absent), and its value. -/
structure StructField where
  exported : Bool
  tag : String
  value : QField

/-- strings.Split on the comma (44), over the character list; the splitOn of
the standard library is defined by well-founded recursion and is avoided so
that concrete tags evaluate. An empty input gives one empty group, as in Go. -/
def splitComma (cs : List Char) : List (List Char) :=
  match cs with
  | [] => [[]]
  | c :: rest =>
    if c = Char.ofNat 44 then [] :: splitComma rest
    else
      match splitComma rest with
      | [] => [[c]]
      | g :: gs => (c :: g) :: gs

/-- strings.Split of a struct tag on commas. -/
def splitTag (tag : String) : List String :=
  (splitComma tag.toList).map (fun g => String.mk g)

/-- url.Values.Add: append the value to the list for the key. -/
def valuesAdd (values : List (String × String)) (k v : String) : List (String × String) :=
  values ++ [(k, v)]

/-- One iteration of the field loop of buildQueryString. The Go switch
dereferences a non-nil pointer and then executes fallthrough, which in Go
transfers control unconditionally into the reflect.String case body;
reflect.Value.String on a non-string value does not panic but returns the
placeholder text of the form angle-bracketed T Value. Hence a dereferenced
int pointer emits the placeholder (never equal to the empty string, so the
omitempty test of the String case cannot fire for it). -/
def addField (values : List (String × String)) (f : StructField) : List (String × String) :=
  if f.exported = false then values
  else if f.tag = "" ∨ f.tag = "-" then values
  else
    let tagParts := splitTag f.tag
    let key := tagParts.headD ""
    let omitempty := (tagParts.drop 1).contains "omitempty"
    match f.value with
    | .fstr s => if omitempty && s == "" then values else valuesAdd values key s
    | .fint n => if omitempty && n == 0 then values else valuesAdd values key (toString n)
    | .fbool b => if omitempty && b == false then values else valuesAdd values key (toString b)
    | .fptrStr os =>
      match os with
      | none => values
      | some s => if omitempty && s == "" then values else valuesAdd values key s
    | .fptrInt oi =>
      match oi with
      | none => values
      | some _ => valuesAdd values key "<int Value>"
    | .fptrBool ob =>
      match ob with
      | none => values
      | some _ => valuesAdd values key "<bool Value>"
    | .fother => values

/-- Uppercase hexadecimal digit. -/
def hexUpper (n : Nat) : Char :=
  if n < 10 then Char.ofNat (48 + n) else Char.ofNat (55 + n)

/-- url.QueryEscape of one ASCII character: alphanumerics and the marks
hyphen, underscore, dot and tilde stay, space becomes plus, anything else is
percent-encoded (the library only carries ASCII here, so byte-wise and
character-wise encoding coincide). -/
def queryEscapeChar (ch : Char) : String :=
  if ch.isAlphanum || ch = Char.ofNat 45 || ch = Char.ofNat 95
      || ch = Char.ofNat 46 || ch = Char.ofNat 126 then
    String.singleton ch
  else if ch = Char.ofNat 32 then "+"
  else "%" ++ String.singleton (hexUpper (ch.toNat / 16))
    ++ String.singleton (hexUpper (ch.toNat % 16))

/-- url.QueryEscape over a whole string. -/
def queryEscape (s : String) : String :=
  String.join (s.toList.map queryEscapeChar)

/-- Insertion into a sorted key list (url.Values.Encode sorts its keys). -/
def insertSorted (x : String) : List String → List String
  | [] => [x]
  | y :: ys => if x ≤ y then x :: y :: ys else y :: insertSorted x ys

/-- The sorted, duplicate-free key sequence of url.Values.Encode. -/
def sortedKeys (values : List (String × String)) : List String :=
  ((values.map Prod.fst).eraseDups).foldr insertSorted []

/-- url.Values.Encode: keys in sorted order, the values of each key in Add
order, every key and value query-escaped, pairs joined with ampersands. -/
def encodeValues (values : List (String × String)) : String :=
  String.intercalate "&"
    ((sortedKeys values).map (fun k =>
      String.intercalate "&"
        ((values.filterMap (fun p => if p.1 == k then some p.2 else none)).map
          (fun v => queryEscape k ++ "=" ++ queryEscape v))))

/-- The dynamic argument of buildQueryString: a nil interface or nil pointer,
a non-struct value, or a (possibly pointed-to) struct given by its fields. -/
inductive QueryParams where
  | nil
  | nonStruct
  | strct (fields : List StructField)

/-- buildQueryString: reflectively walk the fields of the parameter struct,
emit them into url.Values honoring the json tag and omitempty, and encode. -/
def buildQueryString (params : QueryParams) : String :=
  match params with
  | .nil => ""
  | .nonStruct => ""
  | .strct fields =>
    let values := fields.foldl addField []
    if values.isEmpty then "" else "?" ++ encodeValues values

/-- The idempotency options: one optional key. -/
structure IdempotencyOptions where
  idempotencyKey : String

structure EmailTag where
  name : String
  value : String

structure AttachmentData where
  path : Option String
  content : Option String
  filename : String
  contentType : Option String
  contentID : Option String

/-- The send-email request body; fields as in the Go struct, the untyped
string-or-list fields carried as JSON values, the omitempty interface fields
as options. The Go field From is rendered from1 because from is a Lean
keyword. -/
structure PostEmailsRequest where
  from1 : String
  to1 : JValue
  subject : String
  bcc : Option JValue
  cc : Option JValue
  replyTo : Option JValue
  html : Option String
  text : Option String
  headers : List (String × String)
  attachments : List AttachmentData
  tags : List EmailTag
  scheduledAt : Option String
  timezone : Option String

structure PostEmailsResponse where
  id : String
  messageID : Option String
  scheduledAt : Option String
  status : Option String
  timezone : Option String

structure PostEmailReplyRequest where
  from1 : String
  fromName : Option String
  to1 : Option JValue
  cc : Option JValue
  bcc : Option JValue
  subject : Option String
  text : Option String
  html : Option String
  replyTo : Option JValue
  headers : List (String × String)
  attachments : List AttachmentData
  tags : List EmailTag
  includeOriginal : Option Bool
  replyAll : Option Bool
  simple : Option Bool

structure PostEmailReplyResponse where
  id : String
  messageID : String
  awsMessageID : Option String
  repliedToEmailID : String
  repliedToThreadID : Option String
  isThreadReply : Bool

structure PostScheduleEmailRequest where
  from1 : String
  to1 : JValue
  subject : String
  bcc : Option JValue
  cc : Option JValue
  replyTo : Option JValue
  html : Option String
  text : Option String
  headers : List (String × String)
  attachments : List AttachmentData
  tags : List EmailTag
  scheduledAt : String
  timezone : Option String

structure PostScheduleEmailResponse where
  id : String
  scheduledAt : String
  status : String
  timezone : String

/-- EmailService (the nested Address sub-service plays no role in any
claim and is elided). -/
structure EmailService where
  client : Inbound

/-- EmailService.Send: pick the endpoint from ScheduledAt, attach the
Idempotency-Key header exactly when the caller supplied a non-empty key, and
run makeRequest. marshalReq and um stand in for json.Marshal and
json.Unmarshal at the request and response types. -/
def EmailService.Send (s : EmailService) (transport : Transport)
    (marshalReq : PostEmailsRequest → JValue)
    (um : JValue → Option PostEmailsResponse)
    (params : PostEmailsRequest) (options : Option IdempotencyOptions) :
    ApiResponse PostEmailsResponse × Option String :=
  let endpoint := if params.scheduledAt.isSome then "/emails/schedule" else "/emails"
  let headers : List (String × String) :=
    match options with
    | some o =>
      if o.idempotencyKey ≠ "" then [("Idempotency-Key", o.idempotencyKey)] else []
    | none => []
  makeRequest um marshalReq s.client transport "POST" endpoint (some params) headers

/-- EmailService.Reply: reply to the email with the given id, with the same
idempotency-header rule as Send. -/
def EmailService.Reply (s : EmailService) (transport : Transport)
    (marshalReq : PostEmailReplyRequest → JValue)
    (um : JValue → Option PostEmailReplyResponse)
    (id : String) (params : PostEmailReplyRequest)
    (options : Option IdempotencyOptions) :
    ApiResponse PostEmailReplyResponse × Option String :=
  let endpoint := "/emails/" ++ id ++ "/reply"
  let headers : List (String × String) :=
    match options with
    | some o =>
      if o.idempotencyKey ≠ "" then [("Idempotency-Key", o.idempotencyKey)] else []
    | none => []
  makeRequest um marshalReq s.client transport "POST" endpoint (some params) headers

/-- EmailService.Schedule: schedule an email, with the same idempotency
header rule as Send. -/
def EmailService.Schedule (s : EmailService) (transport : Transport)
    (marshalReq : PostScheduleEmailRequest → JValue)
    (um : JValue → Option PostScheduleEmailResponse)
    (params : PostScheduleEmailRequest) (options : Option IdempotencyOptions) :
    ApiResponse PostScheduleEmailResponse × Option String :=
  let headers : List (String × String) :=
    match options with
    | some o =>
      if o.idempotencyKey ≠ "" then [("Idempotency-Key", o.idempotencyKey)] else []
    | none => []
  makeRequest um marshalReq s.client transport "POST" "/emails/schedule" (some params) headers

/-- A dynamic Go value as the webhook header map carries them: exactly the
shapes the GetHeaders type switch distinguishes, plus the other JSON scalars
that fall through the switch unhandled. -/
inductive GoVal where
  | str (s : String)
  | strList (xs : List String)
  | anyList (xs : List GoVal)
  | obj (fields : List (String × GoVal))
  | num (n : Int)
  | bool (b : Bool)
  | nil

structure WebhookAddress where
  name : Option String
  address : String

structure WebhookAddressGroup where
  text : String
  addresses : List WebhookAddress

structure WebhookAttachment where
  filename : String
  contentType : String
  contentID : String
  url : String
  downloadUrl : String

/-- Parsed-data block; date is deliberately untyped upstream and is carried
as a dynamic value here as well. -/
structure WebhookParsedData where
  messageID : String
  date : GoVal
  subject : String
  from1 : WebhookAddressGroup
  to1 : WebhookAddressGroup
  cc : Option WebhookAddressGroup
  bcc : Option WebhookAddressGroup
  replyTo : Option WebhookAddressGroup
  inReplyTo : Option String
  references : Option String
  textBody : String
  htmlBody : String
  attachments : List WebhookAttachment
  headers : List (String × GoVal)
  priority : Option String

structure WebhookCleanedContent where
  html : String
  text : String
  hasHtml : Bool
  hasText : Bool
  attachments : List WebhookAttachment
  headers : List (String × GoVal)

structure WebhookEndpointRef where
  id : String
  name : String
  type : String

structure WebhookEmailData where
  id : String
  messageID : String
  from1 : WebhookAddressGroup
  to1 : WebhookAddressGroup
  recipient : String
  subject : String
  receivedAt : String
  parsedData : WebhookParsedData
  cleanedContent : Option WebhookCleanedContent

structure WebhookPayload where
  event : String
  timestamp : String
  email : WebhookEmailData
  endpoint : Option WebhookEndpointRef

/-- GetFromAddress: format the first from-address, as display name followed
by the angle-bracketed address when a name pointer is present and non-empty,
the bare address otherwise, and the empty string for an empty list. -/
def WebhookPayload.GetFromAddress (w : WebhookPayload) : String :=
  match w.email.from1.addresses with
  | [] => ""
  | addr :: _ =>
    match addr.name with
    | some n => if n ≠ "" then n ++ " <" ++ addr.address ++ ">" else addr.address
    | none => addr.address

/-- GetToAddress: identical to GetFromAddress on the to-group. -/
def WebhookPayload.GetToAddress (w : WebhookPayload) : String :=
  match w.email.to1.addresses with
  | [] => ""
  | addr :: _ =>
    match addr.name with
    | some n => if n ≠ "" then n ++ " <" ++ addr.address ++ ">" else addr.address
    | none => addr.address

/-- Go map assignment for the output headers map: replace the value of an
existing key, append a new key (keys are unique in the maps this models). -/
def mapSet (m : List (String × List String)) (k : String) (v : List String) :
    List (String × List String) :=
  match m with
  | [] => [(k, v)]
  | p :: rest => if p.1 == k then (k, v) :: rest else p :: mapSet rest k v

/-- The per-value normalization of the GetHeaders type switch: a string gives
a one-element list, a string slice is copied as-is, an any-slice is reduced
to its string elements and kept only when at least one remains, an object is
read through its text key and then its value key, and every other dynamic
type produces nothing (the key is omitted). -/
def headerEntry (v : GoVal) : Option (List String) :=
  match v with
  | .str s => some [s]
  | .strList xs => some xs
  | .anyList xs =>
    let strSlice := xs.filterMap (fun item =>
      match item with
      | .str s => some s
      | _ => none)
    if 0 < strSlice.length then some strSlice else none
  | .obj fields =>
    match assocLookup fields "text" with
    | some (.str t) => some [t]
    | _ =>
      match assocLookup fields "value" with
      | some (.str v0) => some [v0]
      | _ => none
  | _ => none

/-- The loop body of GetHeaders: write the normalized value under the key
when the switch produced one, leave the map alone otherwise. -/
def headerStep (headers : List (String × List String)) (kv : String × GoVal) :
    List (String × List String) :=
  match headerEntry kv.2 with
  | some xs => mapSet headers kv.1 xs
  | none => headers

/-- GetHeaders: fold the heterogeneous parsed-data header map into a map from
header name to string list. Go iterates its map in unspecified order, but
every key is written at most once, so the entry order of this list model is
immaterial to the map it denotes. -/
def WebhookPayload.GetHeaders (w : WebhookPayload) : List (String × List String) :=
  w.email.parsedData.headers.foldl headerStep []

section Lemmas

/-- A string whose length is positive is not the empty string. -/
lemma ne_empty_of_length_pos (s : String) (h : 0 < s.length) : s ≠ "" := by
  intro he
  rw [he] at h
  simp at h

/-- Appending to a nonempty prefix keeps the string nonempty. -/
lemma append_ne_empty_left (s t : String) (h : 0 < s.length) : s ++ t ≠ "" := by
  apply ne_empty_of_length_pos
  rw [String.length_append]
  omega

/-- A url.Error message is never the empty string. -/
lemma urlErrorString_ne_empty (op u m : String) : urlErrorString op u m ≠ "" := by
  have h : urlErrorString op u m = (op ++ " " ++ quoteGo u ++ ": ") ++ m := rfl
  rw [h]
  apply append_ne_empty_left
  rw [String.length_append]
  have h2 : (": " : String).length = 2 := by rfl
  omega

/-- The synthesized HTTP status message is never the empty string. -/
lemma statusMessage_ne_empty (resp : HttpResponse) : statusMessage resp ≠ "" := by
  have h : statusMessage resp
      = ("HTTP " ++ toString resp.statusCode ++ ": ") ++ resp.status := rfl
  rw [h]
  apply append_ne_empty_left
  rw [String.length_append]
  have h2 : (": " : String).length = 2 := by rfl
  omega

/-- Both construction-failure messages of buildRequest are nonempty. -/
lemma buildRequest_error_ne_empty (c : Inbound) (method endpoint : String)
    (body : Option JValue) (headers : List (String × String)) (e : String)
    (h : buildRequest c method endpoint body headers = .error e) : e ≠ "" := by
  simp only [buildRequest] at h
  by_cases hv : validMethod (if method = "" then "GET" else method) = false
  · rw [if_pos hv] at h
    injection h with h1
    subst h1
    apply append_ne_empty_left
    decide
  · rw [if_neg hv] at h
    by_cases hc : hasCtlByte (c.baseURL ++ endpoint) = true
    · rw [if_pos hc] at h
      injection h with h1
      subst h1
      apply append_ne_empty_left
      decide
    · rw [if_neg hc] at h
      exact Except.noConfusion h

/-- Every error request can return — a construction failure or a transport
failure — carries a nonempty message. -/
lemma request_error_ne_empty (c : Inbound) (transport : Transport)
    (method endpoint : String) (body : Option JValue)
    (headers : List (String × String)) (e : String)
    (h : request c transport method endpoint body headers = .error e) : e ≠ "" := by
  cases hb : buildRequest c method endpoint body headers with
  | error e0 =>
    have hr : request c transport method endpoint body headers = .error e0 := by
      simp [request, hb]
    rw [hr] at h
    injection h with h1
    subst h1
    exact buildRequest_error_ne_empty c method endpoint body headers e0 hb
  | ok req =>
    cases hd : transport req with
    | doErr op u m =>
      have hr : request c transport method endpoint body headers
          = .error (urlErrorString op u m) := by
        simp [request, hb, hd]
      rw [hr] at h
      injection h with h1
      subst h1
      exact urlErrorString_ne_empty op u m
    | resp r =>
      have hr : request c transport method endpoint body headers = .ok r := by
        simp [request, hb, hd]
      rw [hr] at h
      exact Except.noConfusion h

/-- In every branch of the response classification, the envelope carries
either decoded data with an empty error string or no data with a nonempty
error string. -/
lemma responseEnvelope_exclusive {T : Type} (u : JValue → Option T)
    (resp : HttpResponse) :
    ((responseEnvelope u resp).data.isSome = true)
      ↔ ((responseEnvelope u resp).error = "") := by
  unfold responseEnvelope
  split
  · simp
  · split
    · split
      · split
        · next he => simp [he]
        · simp [statusMessage_ne_empty resp]
      · simp [statusMessage_ne_empty resp]
    · split
      · simp
      · split
        · simp
        · simp

/-- makeRequest rewritten through a successfully built request: the call is
exactly the dispatch of that request. -/
lemma makeRequest_eq_dispatch {T B : Type} (u : JValue → Option T) (mB : B → JValue)
    (c : Inbound) (tr : Transport) (method endpoint : String) (b : Option B)
    (hs : List (String × String)) (req : HttpRequest)
    (hb : buildRequest c method endpoint (b.map mB) hs = .ok req) :
    makeRequest u mB c tr method endpoint b hs = dispatch u tr req := by
  simp only [makeRequest, request, dispatch, hb]
  cases hd : tr req <;> simp [hd]

end Lemmas

/-- Claim C1: for every call completed through makeRequest, exactly one of
the two envelope fields is populated — the returned ApiResponse has data
non-nil if and only if its error string is empty. -/
theorem c1_envelope_exactly_one (T B : Type) (unmarshalT : JValue → Option T)
    (marshalB : B → JValue) (c : Inbound) (transport : Transport)
    (method endpoint : String) (body : Option B)
    (headers : List (String × String)) :
    ((makeRequest unmarshalT marshalB c transport method endpoint body headers).1.data.isSome = true)
      ↔ ((makeRequest unmarshalT marshalB c transport method endpoint body headers).1.error = "") := by
  cases hreq : request c transport method endpoint (body.map marshalB) headers with
  | error e =>
    have hne : e ≠ "" :=
      request_error_ne_empty c transport method endpoint (body.map marshalB) headers e hreq
    simp [makeRequest, hreq, hne]
  | ok resp =>
    simpa [makeRequest, hreq] using responseEnvelope_exclusive unmarshalT resp

/-- Claim C2, counterexample to the claim as stated: on a request whose
construction fails (a malformed method), request does return a Go error,
but makeRequest returns a nil Go error — the failure is folded into the
envelope instead of being handed to the caller as a raised error. -/
theorem c2_counterexample_nil_error_on_construction_failure :
    request ⟨"test-api-key", "https://inbound.new/api/v2"⟩
        (fun _ => .doErr "Post" "https://inbound.new/api/v2/emails" "boom")
        "BAD METHOD" "/emails" none []
      = .error "failed to create request: net/http: invalid method \"BAD METHOD\""
    ∧ (@makeRequest JValue JValue some id ⟨"test-api-key", "https://inbound.new/api/v2"⟩
        (fun _ => .doErr "Post" "https://inbound.new/api/v2/emails" "boom")
        "BAD METHOD" "/emails" none []).2 = none := by
  exact ⟨rfl, rfl⟩

/-- Claim C2 (amended): makeRequest never returns a non-nil Go error; a
construction failure, for which the lower-level request helper does return
a Go error — as it also does for a transport failure — is folded by
makeRequest into the envelope error string exactly like every other
failure. -/
theorem c2_construction_failures_folded (T B : Type) (unmarshalT : JValue → Option T)
    (marshalB : B → JValue) (c : Inbound) (transport : Transport)
    (method endpoint : String) (body : Option B)
    (headers : List (String × String)) :
    (makeRequest unmarshalT marshalB c transport method endpoint body headers).2 = none
    ∧ (∀ e, buildRequest c method endpoint (body.map marshalB) headers = .error e →
        request c transport method endpoint (body.map marshalB) headers = .error e)
    ∧ (∀ e, buildRequest c method endpoint (body.map marshalB) headers = .error e →
        (makeRequest unmarshalT marshalB c transport method endpoint body headers).1
          = { data := none, error := e })
    ∧ (∀ req op u m,
        buildRequest c method endpoint (body.map marshalB) headers = .ok req →
        transport req = .doErr op u m →
        request c transport method endpoint (body.map marshalB) headers
          = .error (urlErrorString op u m)) := by
  refine ⟨?_, ?_, ?_, ?_⟩
  · cases hreq : request c transport method endpoint (body.map marshalB) headers <;>
      simp [makeRequest, hreq]
  · intro e hb
    simp [request, hb]
  · intro e hb
    simp [makeRequest, request, hb]
  · intro req op u m hb hd
    simp [request, hb, hd]

/-- Claim C2 witness: at the malformed method, the construction-failure
hypothesis holds and the envelope carries the construction error message. -/
theorem c2_witness :
    (@makeRequest JValue JValue some id ⟨"test-api-key", "https://inbound.new/api/v2"⟩
        (fun _ => .doErr "Post" "https://inbound.new/api/v2/emails" "boom")
        "BAD METHOD" "/emails" none []).1
      = { data := none,
          error := "failed to create request: net/http: invalid method \"BAD METHOD\"" } :=
  (c2_construction_failures_folded JValue JValue some id
      ⟨"test-api-key", "https://inbound.new/api/v2"⟩
      (fun _ => .doErr "Post" "https://inbound.new/api/v2/emails" "boom")
      "BAD METHOD" "/emails" none []).2.2.1 _ rfl

/-- Claim C4: when the transport call fails, makeRequest returns a nil Go
error and an envelope with no data whose error is the message of the
url.Error value the HTTP client returned, verbatim. -/
theorem c4_transport_failure_envelope (T B : Type) (unmarshalT : JValue → Option T)
    (marshalB : B → JValue) (c : Inbound) (transport : Transport)
    (method endpoint : String) (body : Option B) (headers : List (String × String))
    (req : HttpRequest) (op u m : String)
    (hb : buildRequest c method endpoint (body.map marshalB) headers = .ok req)
    (hd : transport req = .doErr op u m) :
    makeRequest unmarshalT marshalB c transport method endpoint body headers
      = ({ data := none, error := urlErrorString op u m }, none) := by
  simp [makeRequest, request, hb, hd]

/-- Claim C4 witness: a concrete connection-refused transport failure. -/
theorem c4_witness :
    @makeRequest JValue JValue some id ⟨"test-api-key", "https://inbound.new/api/v2"⟩
        (fun _ => .doErr "Get" "https://inbound.new/api/v2/mail" "dial tcp: connection refused")
        "GET" "/mail" none []
      = ({ data := none,
           error := urlErrorString "Get" "https://inbound.new/api/v2/mail"
             "dial tcp: connection refused" }, none) :=
  c4_transport_failure_envelope JValue JValue some id
    ⟨"test-api-key", "https://inbound.new/api/v2"⟩
    (fun _ => .doErr "Get" "https://inbound.new/api/v2/mail" "dial tcp: connection refused")
    "GET" "/mail" none [] _ "Get" "https://inbound.new/api/v2/mail"
    "dial tcp: connection refused" rfl rfl

/-- hasCtlByte distributes over string append. -/
lemma hasCtlByte_append (a b : String) :
    hasCtlByte (a ++ b) = (hasCtlByte a || hasCtlByte b) := by
  simp [hasCtlByte, String.toList, String.data_append, List.any_append]

/-- A POST request over a control-free URL always constructs, producing the
record buildRequest assembles. -/
lemma buildRequest_post_ok (c : Inbound) (endpoint : String) (body : Option JValue)
    (hs : List (String × String)) (h : hasCtlByte (c.baseURL ++ endpoint) = false) :
    buildRequest c "POST" endpoint body hs
      = .ok { method := "POST", url := c.baseURL ++ endpoint,
              headers := hs.foldl (fun acc kv => setHeader acc kv.1 kv.2)
                (setHeader (setHeader [] "Authorization" ("Bearer " ++ c.apiKey))
                  "Content-Type" "application/json"),
              body := body } := by
  have hv : validMethod "POST" = true := by decide
  simp [buildRequest, hv, h]

/-- On the header map assembled from the default headers plus the
idempotency block of Send, Reply and Schedule, the Idempotency-Key lookup
returns exactly the supplied non-empty key and nothing otherwise. -/
lemma lookup_idem_built (c : Inbound) (o : Option IdempotencyOptions) :
    lookupHeader
      (((match o with
         | some o0 =>
           if o0.idempotencyKey ≠ "" then [("Idempotency-Key", o0.idempotencyKey)] else []
         | none => []) : List (String × String)).foldl
          (fun acc kv => setHeader acc kv.1 kv.2)
          (setHeader (setHeader [] "Authorization" ("Bearer " ++ c.apiKey))
            "Content-Type" "application/json"))
      "Idempotency-Key"
      = (match o with
         | some o0 => if o0.idempotencyKey = "" then none else some o0.idempotencyKey
         | none => none) := by
  rcases o with _ | o0
  · rfl
  · by_cases hk : o0.idempotencyKey = ""
    · simp only [hk]
      rfl
    · simp only [if_neg hk, if_pos hk]
      simp [hk, lookupHeader, setHeader]

/-- Claim C5, counterexample to the claim as stated: a 400 response whose
body parses as the error shape with the empty string as the server-supplied
value is not copied into the envelope — the code demands a non-empty parsed
string and synthesizes the fallback message instead. -/
theorem c5_counterexample_empty_error_string :
    (@makeRequest JValue JValue some id ⟨"test-api-key", "https://inbound.new/api/v2"⟩
        (fun _ => .resp { statusCode := 400, status := "400 Bad Request",
                          body := .bytes (some (.jobj [("error", .jstr "")])) })
        "GET" "/mail" none []).1
      = { data := none, error := "HTTP 400: 400 Bad Request" } := by
  rfl

/-- Claim C5 (amended): for every response with status at least 400 the
envelope has no data and the Go error is nil; the envelope error is the
server-supplied string when the body parses as the error shape with a
non-empty string, and otherwise — body not parsing into the shape, or
parsing with an empty string — it is the synthesized message made of the
numeric status code and the status text. -/
theorem c5_api_error_envelope (T B : Type) (unmarshalT : JValue → Option T)
    (marshalB : B → JValue) (c : Inbound) (transport : Transport)
    (method endpoint : String) (body : Option B) (headers : List (String × String))
    (req : HttpRequest) (resp : HttpResponse) (content : Option JValue)
    (hb : buildRequest c method endpoint (body.map marshalB) headers = .ok req)
    (hd : transport req = .resp resp)
    (hbody : resp.body = .bytes content)
    (hstatus : 400 ≤ resp.statusCode) :
    (makeRequest unmarshalT marshalB c transport method endpoint body headers).2 = none
    ∧ (makeRequest unmarshalT marshalB c transport method endpoint body headers).1.data = none
    ∧ (makeRequest unmarshalT marshalB c transport method endpoint body headers).1.error
        = (match unmarshalErrorResp content with
           | some e => if e = "" then statusMessage resp else e
           | none => statusMessage resp)
    ∧ (∀ X : String, X ≠ "" → content = some (.jobj [("error", .jstr X)]) →
        (makeRequest unmarshalT marshalB c transport method endpoint body headers).1.error = X)
    ∧ statusMessage resp = "HTTP " ++ toString resp.statusCode ++ ": " ++ resp.status := by
  have hmr : makeRequest unmarshalT marshalB c transport method endpoint body headers
      = (responseEnvelope unmarshalT resp, none) := by
    simp [makeRequest, request, hb, hd]
  have henv : responseEnvelope unmarshalT resp
      = { data := none,
          error := match unmarshalErrorResp content with
            | some e => if e = "" then statusMessage resp else e
            | none => statusMessage resp } := by
    simp only [responseEnvelope, hbody]
    rw [if_pos hstatus]
    cases he : unmarshalErrorResp content with
    | none => rfl
    | some e =>
      by_cases hemp : e = ""
      · subst hemp
        simp
      · simp [hemp]
  refine ⟨by rw [hmr], by rw [hmr, henv], by rw [hmr, henv], ?_, rfl⟩
  intro X hX hc
  rw [hmr, henv]
  subst hc
  have hu : unmarshalErrorResp (some (.jobj [("error", .jstr X)])) = some X := rfl
  rw [hu]
  simp [hX]

/-- Claim C5 witness: a concrete 401 whose body carries a non-empty
server-supplied error string, copied verbatim into the envelope. -/
theorem c5_witness :
    (@makeRequest JValue JValue some id ⟨"test-api-key", "https://inbound.new/api/v2"⟩
        (fun _ => .resp { statusCode := 401, status := "401 Unauthorized",
                          body := .bytes (some (.jobj [("error", .jstr "Invalid API key")])) })
        "GET" "/mail" none []).1.error = "Invalid API key" :=
  (c5_api_error_envelope JValue JValue some id
      ⟨"test-api-key", "https://inbound.new/api/v2"⟩
      (fun _ => .resp { statusCode := 401, status := "401 Unauthorized",
                        body := .bytes (some (.jobj [("error", .jstr "Invalid API key")])) })
      "GET" "/mail" none [] _ _ _ rfl rfl rfl (by decide)).2.2.2.1
    "Invalid API key" (by decide) rfl

/-- Claim C6: for every response with status below 400 the body is decoded
into the caller-specified target type — success populates data with an empty
error string, and decode failure (a body that is not valid JSON included)
yields the generic parse-failure envelope with no data; the Go error is nil
either way. -/
theorem c6_success_decode (T B : Type) (unmarshalT : JValue → Option T)
    (marshalB : B → JValue) (c : Inbound) (transport : Transport)
    (method endpoint : String) (body : Option B) (headers : List (String × String))
    (req : HttpRequest) (resp : HttpResponse) (content : Option JValue)
    (hb : buildRequest c method endpoint (body.map marshalB) headers = .ok req)
    (hd : transport req = .resp resp)
    (hbody : resp.body = .bytes content)
    (hstatus : resp.statusCode < 400) :
    (makeRequest unmarshalT marshalB c transport method endpoint body headers).2 = none
    ∧ (∀ t, content.bind unmarshalT = some t →
        (makeRequest unmarshalT marshalB c transport method endpoint body headers).1
          = { data := some t, error := "" })
    ∧ (content.bind unmarshalT = none →
        (makeRequest unmarshalT marshalB c transport method endpoint body headers).1
          = { data := none, error := "Failed to parse response" }) := by
  have hmr : makeRequest unmarshalT marshalB c transport method endpoint body headers
      = (responseEnvelope unmarshalT resp, none) := by
    simp [makeRequest, request, hb, hd]
  have hnot : ¬ (400 ≤ resp.statusCode) := by omega
  have henv : responseEnvelope unmarshalT resp
      = (match content.bind unmarshalT with
         | some t => ({ data := some t, error := "" } : ApiResponse T)
         | none => { data := none, error := "Failed to parse response" }) := by
    simp only [responseEnvelope, hbody]
    rw [if_neg hnot]
    cases content with
    | none => rfl
    | some jv =>
      cases ht : unmarshalT jv with
      | none => simp [Option.bind, ht]
      | some t => simp [Option.bind, ht]
  refine ⟨by rw [hmr], ?_, ?_⟩
  · intro t htt
    rw [hmr]
    simp only [henv, htt]
  · intro htt
    rw [hmr]
    simp only [henv, htt]

/-- Claim C6 witness: a concrete 200 response decoded by an identity-style
decoder into the envelope data. -/
theorem c6_witness :
    (@makeRequest JValue JValue some id ⟨"test-api-key", "https://inbound.new/api/v2"⟩
        (fun _ => .resp { statusCode := 200, status := "200 OK",
                          body := .bytes (some (.jstr "pong")) })
        "GET" "/mail" none []).1
      = { data := some (.jstr "pong"), error := "" } :=
  (c6_success_decode JValue JValue some id
      ⟨"test-api-key", "https://inbound.new/api/v2"⟩
      (fun _ => .resp { statusCode := 200, status := "200 OK",
                        body := .bytes (some (.jstr "pong")) })
      "GET" "/mail" none [] _ _ _ rfl rfl rfl (by decide)).2.1
    (.jstr "pong") rfl

/-- Claim C3, evaluated at the failing input: a nil pointer field is indeed
omitted, and a plain int field tagged limit is emitted as limit=10, but a
non-nil pointer-to-int field falls through into the reflect.String case and
is emitted as the URL-escaped placeholder text instead of the decimal 10. -/
theorem c3_pointer_int_fallthrough_eval :
    buildQueryString (.strct [⟨true, "limit,omitempty", .fptrInt none⟩]) = ""
    ∧ buildQueryString (.strct [⟨true, "limit,omitempty", .fint 10⟩]) = "?limit=10"
    ∧ buildQueryString (.strct [⟨true, "limit,omitempty", .fptrInt (some 10)⟩])
        = "?limit=%3Cint+Value%3E"
    ∧ ("?limit=%3Cint+Value%3E" : String) ≠ "?limit=10" := by
  refine ⟨rfl, ?_, ?_, by decide⟩ <;> rfl

/-- Claim C7: every Send, Reply and Schedule call hands the transport one
built request, and that request carries an Idempotency-Key header with
exactly the supplied value when the options hold a non-empty key, and no
such header when the options are nil or the key is the empty string. -/
theorem c7_idempotency_key_header (s : EmailService)
    (mE : PostEmailsRequest → JValue) (uE : JValue → Option PostEmailsResponse)
    (pE : PostEmailsRequest)
    (mR : PostEmailReplyRequest → JValue) (uR : JValue → Option PostEmailReplyResponse)
    (emailID : String) (pR : PostEmailReplyRequest)
    (mS : PostScheduleEmailRequest → JValue) (uS : JValue → Option PostScheduleEmailResponse)
    (pS : PostScheduleEmailRequest)
    (o : Option IdempotencyOptions)
    (hbase : hasCtlByte s.client.baseURL = false)
    (hid : hasCtlByte emailID = false) :
    ∃ reqSend reqReply reqSched : HttpRequest,
      (∀ transport, s.Send transport mE uE pE o = dispatch uE transport reqSend)
      ∧ (∀ transport, s.Reply transport mR uR emailID pR o = dispatch uR transport reqReply)
      ∧ (∀ transport, s.Schedule transport mS uS pS o = dispatch uS transport reqSched)
      ∧ (∀ req ∈ [reqSend, reqReply, reqSched],
          lookupHeader req.headers "Idempotency-Key"
            = (match o with
               | some o0 => if o0.idempotencyKey = "" then none else some o0.idempotencyKey
               | none => none)) := by
  have hF : hasCtlByte "/emails" = false := by decide
  have hS : hasCtlByte "/emails/schedule" = false := by decide
  have hE1 : hasCtlByte "/emails/" = false := by decide
  have hRy : hasCtlByte "/reply" = false := by decide
  have hsend : hasCtlByte (s.client.baseURL
      ++ (if pE.scheduledAt.isSome then "/emails/schedule" else "/emails")) = false := by
    cases hsch : pE.scheduledAt.isSome <;>
      simp [hsch, hasCtlByte_append, hbase, hF, hS]
  have hreply : hasCtlByte (s.client.baseURL ++ ("/emails/" ++ emailID ++ "/reply")) = false := by
    simp [hasCtlByte_append, hbase, hid, hE1, hRy]
  have hsched : hasCtlByte (s.client.baseURL ++ "/emails/schedule") = false := by
    simp [hasCtlByte_append, hbase, hS]
  refine ⟨_, _, _,
    fun transport => makeRequest_eq_dispatch uE mE s.client transport "POST" _ (some pE) _ _
      (buildRequest_post_ok s.client _ _ _ hsend),
    fun transport => makeRequest_eq_dispatch uR mR s.client transport "POST" _ (some pR) _ _
      (buildRequest_post_ok s.client _ _ _ hreply),
    fun transport => makeRequest_eq_dispatch uS mS s.client transport "POST" _ (some pS) _ _
      (buildRequest_post_ok s.client _ _ _ hsched),
    ?_⟩
  intro req hreq
  simp only [List.mem_cons, List.not_mem_nil, or_false] at hreq
  rcases hreq with rfl | rfl | rfl
  · exact lookup_idem_built s.client o
  · exact lookup_idem_built s.client o
  · exact lookup_idem_built s.client o

/-- Claim C7 witness: with a concrete client and a non-empty key, the Send
request carries exactly that Idempotency-Key header. -/
theorem c7_witness :
    ∃ req : HttpRequest,
      (∀ transport, EmailService.Send ⟨⟨"test-api-key", "https://inbound.new/api/v2"⟩⟩
          transport (fun _ => .jnull) (fun _ => none)
          ⟨"a@ex.com", .jstr "b@ex.com", "Hi", none, none, none, none, none, [], [], [], none, none⟩
          (some ⟨"idem-123"⟩)
        = dispatch (fun _ => none) transport req)
      ∧ lookupHeader req.headers "Idempotency-Key" = some "idem-123" := by
  obtain ⟨r1, r2, r3, h1, h2, h3, h4⟩ :=
    c7_idempotency_key_header ⟨⟨"test-api-key", "https://inbound.new/api/v2"⟩⟩
      (fun _ => .jnull) (fun _ => none)
      ⟨"a@ex.com", .jstr "b@ex.com", "Hi", none, none, none, none, none, [], [], [], none, none⟩
      (fun _ => .jnull) (fun _ => none) "em-123"
      ⟨"a@ex.com", none, none, none, none, none, none, none, none, [], [], [], none, none, none⟩
      (fun _ => .jnull) (fun _ => none)
      ⟨"a@ex.com", .jstr "b@ex.com", "Hi", none, none, none, none, none, [], [], [], "in 2 hours", none⟩
      (some ⟨"idem-123"⟩) (by decide) (by decide)
  exact ⟨r1, h1, (h4 r1 (List.mem_cons_self r1 _)).trans rfl⟩

/-- Claim C8: GetFromAddress and GetToAddress return the empty string for an
empty address list; otherwise they use only the first entry, formatted as
the display name followed by the angle-bracketed address when the name
pointer is present and non-empty, and as the bare address otherwise. -/
theorem c8_address_extraction (w : WebhookPayload) :
    (w.GetFromAddress = match w.email.from1.addresses.head? with
      | none => ""
      | some a =>
        if a.name.getD "" ≠ "" then a.name.getD "" ++ " <" ++ a.address ++ ">"
        else a.address)
    ∧ (w.GetToAddress = match w.email.to1.addresses.head? with
      | none => ""
      | some a =>
        if a.name.getD "" ≠ "" then a.name.getD "" ++ " <" ++ a.address ++ ">"
        else a.address) := by
  constructor
  · cases hl : w.email.from1.addresses with
    | nil => simp [WebhookPayload.GetFromAddress, hl]
    | cons a rest =>
      obtain ⟨nm, ad⟩ := a
      cases nm with
      | none => simp [WebhookPayload.GetFromAddress, hl]
      | some n => simp [WebhookPayload.GetFromAddress, hl, Option.getD]
  · cases hl : w.email.to1.addresses with
    | nil => simp [WebhookPayload.GetToAddress, hl]
    | cons a rest =>
      obtain ⟨nm, ad⟩ := a
      cases nm with
      | none => simp [WebhookPayload.GetToAddress, hl]
      | some n => simp [WebhookPayload.GetToAddress, hl, Option.getD]

/-- Writing one key with mapSet makes its lookup return the written value
and leaves the lookup of every other key unchanged. -/
lemma assocLookup_mapSet (m : List (String × List String)) (k0 k : String)
    (v : List String) :
    assocLookup (mapSet m k0 v) k = if k = k0 then some v else assocLookup m k := by
  induction m with
  | nil =>
    rcases eq_or_ne k k0 with rfl | hk
    · simp [mapSet, assocLookup]
    · have hbe : (k0 == k) = false := beq_eq_false_iff_ne.mpr (Ne.symm hk)
      simp [mapSet, assocLookup, List.find?, hbe, hk]
  | cons p rest ih =>
    by_cases hp : p.1 == k0
    · have hp1 : p.1 = k0 := by simpa using hp
      rcases eq_or_ne k k0 with rfl | hk
      · simp [mapSet, assocLookup, hp, List.find?]
      · have hbe : (k0 == k) = false := beq_eq_false_iff_ne.mpr (Ne.symm hk)
        have hbp : (p.1 == k) = false := by rw [hp1]; exact hbe
        simp [mapSet, assocLookup, hp, List.find?, hbe, hbp, hk]
    · have hp1 : p.1 ≠ k0 := by simpa using hp
      rcases eq_or_ne k k0 with rfl | hk
      · have hbp : (p.1 == k) = false := beq_eq_false_iff_ne.mpr hp1
        simpa [mapSet, assocLookup, hp, List.find?, hbp] using ih
      · by_cases hpk : p.1 == k
        · simp [mapSet, assocLookup, hp, hpk, List.find?, hk]
        · simpa [mapSet, assocLookup, hp, hpk, List.find?, hk] using ih

/-- Folding entries none of which carries the key leaves the lookup of that
key untouched. -/
lemma foldl_headerStep_notmem (entries : List (String × GoVal))
    (acc : List (String × List String)) (k : String)
    (h : ∀ kv ∈ entries, kv.1 ≠ k) :
    assocLookup (entries.foldl headerStep acc) k = assocLookup acc k := by
  induction entries generalizing acc with
  | nil => rfl
  | cons e es ih =>
    rw [List.foldl_cons,
      ih (headerStep acc e) (fun kv hkv => h kv (List.mem_cons_of_mem e hkv))]
    unfold headerStep
    cases he : headerEntry e.2 with
    | none => rfl
    | some xs =>
      rw [assocLookup_mapSet]
      have hne : k ≠ e.1 := fun hh => (h e (List.mem_cons_self e es)) hh.symm
      simp [hne]

/-- With pairwise-distinct keys, the lookup of a key present in the entries
after the fold is its normalized header entry when one is produced, and
falls back to the initial map otherwise. -/
lemma foldl_headerStep_lookup (entries : List (String × GoVal))
    (acc : List (String × List String)) (k : String) (v : GoVal)
    (hnd : (entries.map Prod.fst).Nodup) (hmem : (k, v) ∈ entries) :
    assocLookup (entries.foldl headerStep acc) k
      = (match headerEntry v with
         | some xs => some xs
         | none => assocLookup acc k) := by
  induction entries generalizing acc with
  | nil => cases hmem
  | cons e es ih =>
    have hnd1 : e.1 ∉ es.map Prod.fst ∧ (es.map Prod.fst).Nodup := by
      simpa [List.nodup_cons] using hnd
    rw [List.foldl_cons]
    rcases List.mem_cons.mp hmem with he | he
    · subst he
      have hknot : k ∉ es.map Prod.fst := by simpa using hnd1.1
      have hknotin : ∀ kv ∈ es, kv.1 ≠ k := by
        intro kv hkv hkk
        apply hknot
        have hm : kv.1 ∈ es.map Prod.fst := List.mem_map_of_mem Prod.fst hkv
        rw [hkk] at hm
        exact hm
      rw [foldl_headerStep_notmem es _ k hknotin]
      simp only [headerStep]
      cases hev : headerEntry v with
      | none => simp [hev]
      | some xs => simp [hev, assocLookup_mapSet]
    · have hkin : k ∈ es.map Prod.fst := by
        have : (k, v).1 ∈ es.map Prod.fst := List.mem_map_of_mem Prod.fst he
        simpa using this
      have hne : e.1 ≠ k := fun hh => hnd1.1 (hh ▸ hkin)
      rw [ih _ hnd1.2 he]
      cases hev : headerEntry v with
      | some xs => rfl
      | none =>
        unfold headerStep
        cases hee : headerEntry e.2 with
        | none => rfl
        | some xs =>
          rw [assocLookup_mapSet]
          simp [Ne.symm hne]

/-- The empty address group used to pad the example payload. -/
def emptyGroup : WebhookAddressGroup := ⟨"", []⟩

/-- The heterogeneous header map of the specification example. -/
def exampleHeaders : List (String × GoVal) :=
  [("k1", .str "v"),
   ("k2", .anyList [.str "a", .str "b"]),
   ("k3", .obj [("text", .str "t")]),
   ("k4", .obj [("novalue", .num 1)])]

/-- A concrete webhook payload whose parsed-data headers realize the example
of the specification. -/
def examplePayload : WebhookPayload :=
  ⟨"email.received", "2025-01-16T00:00:00Z",
   ⟨"em-1", "m-1", emptyGroup, emptyGroup, "r@x.com", "s", "2025-01-16T00:00:00Z",
    ⟨"m-1", .str "2025-01-16", "s", emptyGroup, emptyGroup, none, none, none,
     none, none, "", "", [], exampleHeaders, none⟩,
    none⟩,
   none⟩

/-- Claim C9: GetHeaders maps a string value to a one-element list, copies a
string slice as-is, keeps only string elements of a heterogeneous list, and
reads an object through its text key then its value key, omitting the header
when nothing applies; on the example map the output is exactly k1, k2, k3,
with k4 absent. -/
theorem c9_header_normalization :
    (∀ w : WebhookPayload, (w.email.parsedData.headers.map Prod.fst).Nodup →
       ∀ k v, (k, v) ∈ w.email.parsedData.headers →
         assocLookup w.GetHeaders k = headerEntry v)
    ∧ examplePayload.GetHeaders = [("k1", ["v"]), ("k2", ["a", "b"]), ("k3", ["t"])]
    ∧ assocLookup examplePayload.GetHeaders "k4" = none := by
  refine ⟨?_, rfl, rfl⟩
  intro w hnd k v hmem
  unfold WebhookPayload.GetHeaders
  rw [foldl_headerStep_lookup _ _ k v hnd hmem]
  cases hev : headerEntry v <;> simp [assocLookup]

/-- Claim C9 witness: the mixed-list header of the example payload is looked
up to its normalized entry. -/
theorem c9_witness :
    assocLookup examplePayload.GetHeaders "k2"
      = headerEntry (.anyList [.str "a", .str "b"]) :=
  (c9_header_normalization).1 examplePayload (by decide) "k2"
    (.anyList [.str "a", .str "b"])
    (List.mem_cons_of_mem _ (List.mem_cons_self _ _))

/-- Claim C10: a header whose value is a heterogeneous list is either
omitted from the output — exactly when the list has no string elements, the
empty list included — or mapped to its string elements in order; in
particular such a key is never mapped to an empty list. -/
theorem c10_heterogeneous_list_never_empty (w : WebhookPayload)
    (hnd : (w.email.parsedData.headers.map Prod.fst).Nodup)
    (k : String) (xs : List GoVal)
    (hmem : (k, GoVal.anyList xs) ∈ w.email.parsedData.headers) :
    (assocLookup w.GetHeaders k
      = (if (xs.filterMap (fun item => match item with
            | GoVal.str s => some s
            | _ => none)).isEmpty then none
         else some (xs.filterMap (fun item => match item with
            | GoVal.str s => some s
            | _ => none))))
    ∧ assocLookup w.GetHeaders k ≠ some [] := by
  have hl : assocLookup w.GetHeaders k = headerEntry (GoVal.anyList xs) := by
    unfold WebhookPayload.GetHeaders
    rw [foldl_headerStep_lookup _ _ k (GoVal.anyList xs) hnd hmem]
    cases hev : headerEntry (GoVal.anyList xs) <;> simp [assocLookup]
  rw [hl]
  constructor
  · unfold headerEntry
    cases hss : xs.filterMap (fun item => match item with
        | GoVal.str s => some s
        | _ => none) with
    | nil => simp [hss]
    | cons y ys => simp [hss]
  · unfold headerEntry
    cases hss : xs.filterMap (fun item => match item with
        | GoVal.str s => some s
        | _ => none) with
    | nil => simp [hss]
    | cons y ys => simp [hss]

/-- Claim C10 witness: the example mixed list yields its string elements and
not an empty list. -/
theorem c10_witness :
    assocLookup examplePayload.GetHeaders "k2" = some ["a", "b"]
    ∧ assocLookup examplePayload.GetHeaders "k2" ≠ some [] := by
  have h := c10_heterogeneous_list_never_empty examplePayload (by decide) "k2"
    [.str "a", .str "b"] (List.mem_cons_of_mem _ (List.mem_cons_self _ _))
  exact ⟨h.1.trans rfl, h.2⟩

end InboundSDK
